import Mathlib

/-!
SudokuApp: the puzzle session of `src/App.js`

A shallow embedding of the `SudokuPuzzle` component's state and of its event
handlers (`validatePuzzle`, `solveSudoku`, `solvePuzzle`, `resetPuzzle`,
`handleCellChange`, `clearCell`), followed by the properties proved about them.

Modelling decisions.

* The four `useState` cells are the fields of `State`; every handler reads the
  state of the render it was created in and schedules the next one, so a handler
  is a function `State → State`.
* The `sudoku-umd` library (`Sudoku.generate`, `Sudoku.solve`,
  `Sudoku.board_string_to_grid`) is not part of the sources; it is the
  parameter `Lib`. Its grids hold the cell values 0..9.
* A cell of the working grid is a JavaScript number: a digit, or `NaN` (what
  unary `+` makes of a character that is not a number).
* JavaScript strings are `String`s; `JSON.stringify`, `JSON.parse`,
  `Array.prototype.flat`, `join` and unary `+` are modelled on the values the
  component applies them to.
-/

namespace SudokuApp

/-! ## Data model -/

/-- A cell value held in a grid of the component: the number `d` (0 is the empty
cell, see `cell !== 0` in the render) or `NaN`. -/
inductive Cell where
  | num (d : Fin 10)
  | nan
deriving DecidableEq, Repr

/-- A grid as the component holds it: an array of rows. -/
abbrev Grid := List (List Cell)

/-- A grid as the library hands it out: every cell is a value 0..9. -/
abbrev LibGrid := List (List (Fin 10))

/-- A library grid seen as a grid of the component. -/
def ofLib (g : LibGrid) : Grid := g.map (fun r => r.map Cell.num)

/-- The library `sudoku-umd`, as far as the component calls it. `solve` returns
`none` for the library's `false`. -/
structure Lib where
  generate : String → String
  solve : String → Option String
  board_string_to_grid : String → LibGrid

/-- The four state cells of `SudokuPuzzle`. -/
structure State where
  initialPuzzle : Grid
  puzzle : Grid
  solvedPuzzle : Grid
  validationResult : String
deriving DecidableEq, Repr

/-! ## JavaScript built-ins used by the component -/

/-- The decimal digit of a value 0..9. -/
def digitChar (d : Fin 10) : Char := Char.ofNat (48 + d.val)

/-- `String(cell)` as `join` applies it to a number. -/
def cellText : Cell → List Char
  | .num d => [digitChar d]
  | .nan => ['N', 'a', 'N']

/-- `JSON.stringify` of a number: `NaN` is written `null`. -/
def cellJSON : Cell → List Char
  | .num d => [digitChar d]
  | .nan => ['n', 'u', 'l', 'l']

/-- The text of a JSON array after its first element: `,x` for each further
element, then the closing bracket. -/
def arrayTail {α : Type} (enc : α → List Char) : List α → List Char
  | [] => [']']
  | x :: xs => ',' :: (enc x ++ arrayTail enc xs)

/-- `JSON.stringify` of an array whose elements are written by `enc`. -/
def arrayJSON {α : Type} (enc : α → List Char) : List α → List Char
  | [] => ['[', ']']
  | x :: xs => '[' :: (enc x ++ arrayTail enc xs)

/-- `JSON.stringify(grid)`. -/
def jsonStringify (g : Grid) : String := String.mk (arrayJSON (arrayJSON cellJSON) g)

/-- `array.map((x, i) => f(x, i))`, counting indices from `i`. -/
def mapWithIndexFrom {α β : Type} (f : α → Nat → β) : Nat → List α → List β
  | _, [] => []
  | i, x :: xs => f x i :: mapWithIndexFrom f (i + 1) xs

/-- `array.map((x, i) => f(x, i))`. -/
def mapWithIndex {α β : Type} (f : α → Nat → β) (xs : List α) : List β :=
  mapWithIndexFrom f 0 xs

/-- White space and cells terminators of the JavaScript string grammar
(`StrWhiteSpaceChar`): unary `+` strips them before reading a number. -/
def isStrWhiteSpace (c : Char) : Bool :=
  let n := c.toNat
  n == 0x9 || n == 0xA || n == 0xB || n == 0xC || n == 0xD || n == 0x20 || n == 0xA0 ||
  n == 0x1680 || (0x2000 ≤ n && n ≤ 0x200A) || n == 0x2028 || n == 0x2029 ||
  n == 0x202F || n == 0x205F || n == 0x3000 || n == 0xFEFF

/-- Unary `+` on the text of a cell input. The input has `maxLength={1}`, so the
text is the empty string (`none`) or one character. The empty string and white
space are 0, a decimal digit is its value, anything else is `NaN`. -/
def toNumber : Option Char → Cell
  | none => .num 0
  | some c =>
    if h : 48 ≤ c.toNat ∧ c.toNat ≤ 57 then .num ⟨c.toNat - 48, by omega⟩
    else if isStrWhiteSpace c then .num 0
    else .nan

/-- The value of a decimal digit character. -/
def digitValue (c : Char) : Option (Fin 10) :=
  if h : 48 ≤ c.toNat ∧ c.toNat ≤ 57 then some ⟨c.toNat - 48, by omega⟩ else none

/-- Where `JSON.parse` stands in the text of an array of arrays of digits; the
rows read so far and the cells of the row being read are carried along. -/
inductive ParseState where
  | start
  | gridOpen
  | rowOpen (rows : Grid)
  | afterCell (rows : Grid) (cur : List Cell)
  | afterCellComma (rows : Grid) (cur : List Cell)
  | afterRow (rows : Grid)
  | afterRowComma (rows : Grid)
  | done (rows : Grid)

/-- One character of `JSON.parse`. `none` is a text outside the fragment
modelled here (arrays of arrays of one-digit numbers, no white space). -/
def parseStep : ParseState → Char → Option ParseState
  | .start, c => if c = '[' then some .gridOpen else none
  | .gridOpen, c =>
    if c = '[' then some (.rowOpen []) else if c = ']' then some (.done []) else none
  | .rowOpen rows, c =>
    if c = ']' then some (.afterRow (rows ++ [[]]))
    else (digitValue c).map (fun d => .afterCell rows [.num d])
  | .afterCell rows cur, c =>
    if c = ',' then some (.afterCellComma rows cur)
    else if c = ']' then some (.afterRow (rows ++ [cur])) else none
  | .afterCellComma rows cur, c =>
    (digitValue c).map (fun d => .afterCell rows (cur ++ [.num d]))
  | .afterRow rows, c =>
    if c = ',' then some (.afterRowComma rows)
    else if c = ']' then some (.done rows) else none
  | .afterRowComma rows, c => if c = '[' then some (.rowOpen rows) else none
  | .done _, _ => none

/-- Reads the rest of a text from a parse state. -/
def parseFrom : ParseState → List Char → Option Grid
  | .done rows, [] => some rows
  | _, [] => none
  | st, c :: cs =>
    match parseStep st c with
    | some st1 => parseFrom st1 cs
    | none => none

/-- `JSON.parse(text)` on the text of a grid of digits. -/
def jsonParse (text : String) : Option Grid := parseFrom .start text.data

/-- `JSON.parse(JSON.stringify(g))` for a grid `g` of the library: the deep
copy the component takes of a generated puzzle. The parse of such a text always
succeeds (`jsonParse_jsonStringify`), so the default `[]` is never taken. -/
def deepCopy (g : LibGrid) : Grid := (jsonParse (jsonStringify (ofLib g))).getD []

/-- The cell at `(row, col)`, if the grid has one. -/
def getCell (g : Grid) (row col : Nat) : Option Cell :=
  match g[row]? with
  | some r => r[col]?
  | none => none

/-! ## The component -/

/-- Lines 5-9: `generateRandomSudoku`. -/
def generateRandomSudoku (lib : Lib) : LibGrid :=
  let difficulty := "easy"
  let puzzle := lib.generate difficulty
  lib.board_string_to_grid puzzle

/-- Lines 11-15: the state of the first render of `SudokuPuzzle`. -/
def initialState (lib : Lib) : State :=
  let initialPuzzle := generateRandomSudoku lib
  { initialPuzzle := ofLib initialPuzzle
    puzzle := deepCopy initialPuzzle
    solvedPuzzle := []
    validationResult := "" }

/-- Lines 30-33: `validatePuzzle`. -/
def validatePuzzle (s : State) : State :=
  let isPuzzleValid := jsonStringify s.puzzle == jsonStringify s.solvedPuzzle
  { s with validationResult := if isPuzzleValid then "Correct" else "Incorrect" }

/-- `board.flat().join('')`. -/
def flatten (board : Grid) : String :=
  String.mk ((board.flatten.map cellText).flatten)

/-- Truthiness of what `Sudoku.solve` returned: `false` and the empty string
are falsy. -/
def truthy : Option String → Bool
  | none => false
  | some str => str != ""

/-- Lines 35-45: `solveSudoku`. -/
def solveSudoku (lib : Lib) (board : Grid) : Grid :=
  let flattenedBoard := flatten board
  let solved := lib.solve flattenedBoard
  if truthy solved then
    let solvedGrid := ofLib (lib.board_string_to_grid (solved.getD ""))
    solvedGrid
  else
    board

/-- Lines 47-51: `solvePuzzle`. -/
def solvePuzzle (lib : Lib) (s : State) : State :=
  let solved := solveSudoku lib s.puzzle
  { s with puzzle := solved, solvedPuzzle := solved }

/-- Lines 53-59: `resetPuzzle`. -/
def resetPuzzle (lib : Lib) (_s : State) : State :=
  let newPuzzle := generateRandomSudoku lib
  { initialPuzzle := ofLib newPuzzle
    puzzle := deepCopy newPuzzle
    solvedPuzzle := []
    validationResult := "" }

/-- Lines 61-68: `handleCellChange`. -/
def handleCellChange (value : Option Char) (row col : Nat) (s : State) : State :=
  let newPuzzle := mapWithIndex (fun r rowIndex =>
    mapWithIndex (fun cell colIndex =>
      if rowIndex = row ∧ colIndex = col then toNumber value else cell) r) s.puzzle
  { s with puzzle := newPuzzle }

/-- Lines 70-77: `clearCell`. -/
def clearCell (row col : Nat) (s : State) : State :=
  let newPuzzle := mapWithIndex (fun r rowIndex =>
    mapWithIndex (fun cell colIndex =>
      if rowIndex = row ∧ colIndex = col then Cell.num 0 else cell) r) s.puzzle
  { s with puzzle := newPuzzle }


/-- The grid both cell handlers build: `x` written at `(row, col)`. -/
def writeCell (x : Cell) (row col : Nat) (g : Grid) : Grid :=
  mapWithIndex (fun r rowIndex =>
    mapWithIndex (fun cell colIndex =>
      if rowIndex = row ∧ colIndex = col then x else cell) r) g

/-- No text of `enc` continues into another one: two texts that start the same
character sequence encode the same value and leave the same remainder. -/
def PrefixCode {α : Type} (enc : α → List Char) : Prop :=
  ∀ x y t u, enc x ++ t = enc y ++ u → x = y ∧ t = u

/-- No text of `enc` starts with a closing bracket. -/
def NoClose {α : Type} (enc : α → List Char) : Prop :=
  ∀ x t u, enc x ++ t ≠ ']' :: u

/-- A decimal digit character. -/
def isDigitChar (c : Char) : Bool := decide (48 ≤ c.toNat ∧ c.toNat ≤ 57)

/-- The cell value of the character at an index of a board string; a missing
character or one that is not a digit gives the empty cell. -/
def charDigit (c : Option Char) : Fin 10 := (c.bind digitValue).getD 0

/-- Modelled from the spec: `Sudoku.board_string_to_grid` belongs to the library
`sudoku-umd`, whose code is not among the sources. The spec describes it as the
row-major unflatten of a sequence of 81 values: 9 rows of 9, the cell at
`(r, c)` being the value at index `9 * r + c`. -/
def unflatten (s : String) : LibGrid :=
  (List.range 9).map (fun r => (List.range 9).map (fun c => charDigit s.data[9 * r + c]?))

/-- An event of a session other than Solve and Reset. -/
inductive Edit where
  | change (value : Option Char) (row col : Nat)
  | clear (row col : Nat)
  | validate
deriving DecidableEq, Repr

/-- The handler an event runs. -/
def applyEdit (s : State) : Edit → State
  | .change value row col => handleCellChange value row col s
  | .clear row col => clearCell row col s
  | .validate => validatePuzzle s

/-- The state after a sequence of events, first event first. -/
def runEdits (edits : List Edit) (s : State) : State := edits.foldl applyEdit s

/-! ## A concrete session -/

/-- A puzzle with 30 givens, as a board string (0 is the empty cell). -/
def examplePuzzleText : String :=
  "530070000600195000098000060800060003400803001700020006060000280000419005000080079"

/-- The solution of `examplePuzzleText`. -/
def exampleSolutionText : String :=
  "534678912672195348198342567859761423426853791713924856961537284287419635345286179"

/-- A stand-in for the library on the example: it generates the example puzzle,
knows its solution, and reports no solution for any other board. -/
def exampleLib : Lib where
  generate := fun _ => examplePuzzleText
  solve := fun board => if board = examplePuzzleText then some exampleSolutionText else none
  board_string_to_grid := unflatten

/-- The session right after the example puzzle was generated. -/
def exampleSession : State := initialState exampleLib

/-- The example session after the player typed a second 5 into the first row,
which no solution of the puzzle allows. -/
def exampleWrongEntry : State := handleCellChange (some '5') 0 2 exampleSession

/-- The events that type the whole solution into the grid, cell by cell. -/
def exampleSolutionEdits : List Edit :=
  (List.range 81).map (fun i => Edit.change exampleSolutionText.data[i]? (i / 9) (i % 9))

/-! ## Lemmas on the built-ins -/

theorem digitChar_injective : Function.Injective digitChar := by
  intro a b h
  fin_cases a <;> fin_cases b <;> first | rfl | (exact absurd h (by decide))

theorem digitValue_digitChar (d : Fin 10) : digitValue (digitChar d) = some d := by
  fin_cases d <;> rfl

theorem parseFrom_cons (st : ParseState) (c : Char) (cs : List Char) :
    parseFrom st (c :: cs) =
      match parseStep st c with
      | some st1 => parseFrom st1 cs
      | none => none := by
  cases st <;> rfl

theorem parseFrom_cells (rows : Grid) (ds : List (Fin 10)) (cur : List Cell)
    (rest : List Char) :
    parseFrom (.afterCell rows cur) (arrayTail cellJSON (ds.map Cell.num) ++ rest) =
      parseFrom (.afterRow (rows ++ [cur ++ ds.map Cell.num])) rest := by
  induction ds generalizing cur with
  | nil => simp [arrayTail, parseFrom_cons, parseStep]
  | cons d ds ih =>
    simp only [List.map_cons, arrayTail, cellJSON, List.cons_append, List.nil_append,
      parseFrom_cons, parseStep]
    simp [digitValue_digitChar, ih]

theorem parseFrom_row (rows : Grid) (r : List (Fin 10)) (rest : List Char) :
    parseFrom (.rowOpen rows) ((arrayJSON cellJSON (r.map Cell.num)).tail ++ rest) =
      parseFrom (.afterRow (rows ++ [r.map Cell.num])) rest := by
  cases r with
  | nil => simp [arrayJSON, parseFrom_cons, parseStep]
  | cons d ds =>
    have hd : digitChar d ≠ ']' := by fin_cases d <;> decide
    simp only [List.map_cons, arrayJSON, cellJSON, List.tail_cons, List.cons_append,
      List.nil_append, parseFrom_cons, parseStep, hd, if_false, digitValue_digitChar,
      Option.map_some']
    simpa using parseFrom_cells rows ds [Cell.num d] rest

theorem arrayJSON_eq_cons {α : Type} (enc : α → List Char) (xs : List α) :
    arrayJSON enc xs = '[' :: (arrayJSON enc xs).tail := by
  cases xs <;> rfl

theorem parseFrom_rows (rows : Grid) (g : LibGrid) :
    parseFrom (.afterRow rows) (arrayTail (arrayJSON cellJSON) (ofLib g)) =
      some (rows ++ ofLib g) := by
  induction g generalizing rows with
  | nil => simp [ofLib, arrayTail, parseFrom_cons, parseStep, parseFrom]
  | cons r g ih =>
    have h := ih (rows ++ [r.map Cell.num])
    simp only [ofLib, List.map_cons, arrayTail] at h ⊢
    rw [parseFrom_cons]
    simp only [parseStep, if_true]
    rw [arrayJSON_eq_cons, List.cons_append, parseFrom_cons]
    simp only [parseStep, if_true]
    rw [parseFrom_row, h]
    simp

/-- `JSON.parse` reads back what `JSON.stringify` wrote for a grid of digits. -/
theorem jsonParse_jsonStringify (g : LibGrid) :
    jsonParse (jsonStringify (ofLib g)) = some (ofLib g) := by
  cases g with
  | nil => rfl
  | cons r g =>
    show parseFrom .start ('[' :: (arrayJSON cellJSON (r.map Cell.num) ++
      arrayTail (arrayJSON cellJSON) (ofLib g))) = some (r.map Cell.num :: ofLib g)
    rw [parseFrom_cons]
    simp only [parseStep, if_true]
    rw [arrayJSON_eq_cons, List.cons_append, parseFrom_cons]
    simp only [parseStep, if_true]
    rw [parseFrom_row, parseFrom_rows]
    simp

theorem deepCopy_eq (g : LibGrid) : deepCopy g = ofLib g := by
  simp [deepCopy, jsonParse_jsonStringify]

theorem arrayTail_prefixCode {α : Type} {enc : α → List Char} (hp : PrefixCode enc) :
    PrefixCode (arrayTail enc) := by
  intro xs
  induction xs with
  | nil =>
    intro ys t u h
    cases ys with
    | nil => simpa [arrayTail] using h
    | cons y ys => simp [arrayTail] at h
  | cons x xs ih =>
    intro ys t u h
    cases ys with
    | nil => simp [arrayTail] at h
    | cons y ys =>
      simp only [arrayTail, List.cons_append, List.cons.injEq, true_and,
        List.append_assoc] at h
      obtain ⟨hxy, hrest⟩ := hp _ _ _ _ h
      obtain ⟨hxs, htu⟩ := ih _ _ _ hrest
      exact ⟨by rw [hxy, hxs], htu⟩

theorem arrayJSON_prefixCode {α : Type} {enc : α → List Char} (hp : PrefixCode enc)
    (hc : NoClose enc) : PrefixCode (arrayJSON enc) := by
  intro xs ys t u h
  cases xs with
  | nil =>
    cases ys with
    | nil => simpa [arrayJSON] using h
    | cons y ys =>
      simp only [arrayJSON, List.cons_append, List.cons.injEq, true_and,
        List.append_assoc, List.nil_append] at h
      exact absurd h.symm (hc _ _ _)
  | cons x xs =>
    cases ys with
    | nil =>
      simp only [arrayJSON, List.cons_append, List.cons.injEq, true_and,
        List.append_assoc, List.nil_append] at h
      exact absurd h (hc _ _ _)
    | cons y ys =>
      simp only [arrayJSON, List.cons_append, List.cons.injEq, true_and,
        List.append_assoc] at h
      obtain ⟨hxy, hrest⟩ := hp _ _ _ _ h
      obtain ⟨hxs, htu⟩ := arrayTail_prefixCode hp _ _ _ _ hrest
      exact ⟨by rw [hxy, hxs], htu⟩

theorem arrayJSON_noClose {α : Type} (enc : α → List Char) : NoClose (arrayJSON enc) := by
  intro xs t u h
  rw [arrayJSON_eq_cons] at h
  simp at h

theorem cellJSON_prefixCode : PrefixCode cellJSON := by
  intro x y t u h
  have hn : ∀ d : Fin 10, digitChar d ≠ 'n' := by intro d; fin_cases d <;> decide
  cases x with
  | num a =>
    cases y with
    | num b =>
      simp only [cellJSON, List.cons_append, List.nil_append, List.cons.injEq] at h
      exact ⟨by rw [digitChar_injective h.1], h.2⟩
    | nan =>
      simp only [cellJSON, List.cons_append, List.nil_append, List.cons.injEq] at h
      exact absurd h.1 (hn a)
  | nan =>
    cases y with
    | num b =>
      simp only [cellJSON, List.cons_append, List.nil_append, List.cons.injEq] at h
      exact absurd h.1.symm (hn b)
    | nan => simpa [cellJSON] using h

theorem cellJSON_noClose : NoClose cellJSON := by
  intro x t u h
  have hn : ∀ d : Fin 10, digitChar d ≠ ']' := by intro d; fin_cases d <;> decide
  cases x with
  | num a =>
    simp only [cellJSON, List.cons_append, List.nil_append, List.cons.injEq] at h
    exact hn a h.1
  | nan => simp [cellJSON] at h

/-- Two grids with the same `JSON.stringify` text are the same grid. -/
theorem jsonStringify_injective : Function.Injective jsonStringify := by
  intro g1 g2 h
  have h1 : arrayJSON (arrayJSON cellJSON) g1 ++ [] = arrayJSON (arrayJSON cellJSON) g2 ++ [] := by
    simpa using congrArg String.data h
  exact (arrayJSON_prefixCode (arrayJSON_prefixCode cellJSON_prefixCode cellJSON_noClose)
    (arrayJSON_noClose _) _ _ _ _ h1).1

/-! ## Lemmas on the cell handlers -/

theorem handleCellChange_eq (value : Option Char) (row col : Nat) (s : State) :
    handleCellChange value row col s =
      { s with puzzle := writeCell (toNumber value) row col s.puzzle } := rfl

theorem clearCell_eq (row col : Nat) (s : State) :
    clearCell row col s = { s with puzzle := writeCell (Cell.num 0) row col s.puzzle } := rfl

theorem length_mapWithIndexFrom {α β : Type} (f : α → Nat → β) (i : Nat) (xs : List α) :
    (mapWithIndexFrom f i xs).length = xs.length := by
  induction xs generalizing i with
  | nil => rfl
  | cons x xs ih => simp [mapWithIndexFrom, ih]

theorem getElem?_mapWithIndexFrom {α β : Type} (f : α → Nat → β) (i k : Nat) (xs : List α) :
    (mapWithIndexFrom f i xs)[k]? = (xs[k]?).map (fun x => f x (i + k)) := by
  induction xs generalizing i k with
  | nil => simp [mapWithIndexFrom]
  | cons x xs ih =>
    cases k with
    | zero => simp [mapWithIndexFrom]
    | succ k =>
      simp only [mapWithIndexFrom, List.getElem?_cons_succ, ih]
      congr 1
      funext y
      congr 1
      omega

theorem length_mapWithIndex {α β : Type} (f : α → Nat → β) (xs : List α) :
    (mapWithIndex f xs).length = xs.length :=
  length_mapWithIndexFrom f 0 xs

theorem getElem?_mapWithIndex {α β : Type} (f : α → Nat → β) (k : Nat) (xs : List α) :
    (mapWithIndex f xs)[k]? = (xs[k]?).map (fun x => f x k) := by
  simp [mapWithIndex, getElem?_mapWithIndexFrom]

theorem length_writeCell (x : Cell) (row col : Nat) (g : Grid) :
    (writeCell x row col g).length = g.length :=
  length_mapWithIndex _ g

theorem getElem?_writeCell (x : Cell) (row col r : Nat) (g : Grid) :
    (writeCell x row col g)[r]? = (g[r]?).map (fun cells =>
      mapWithIndex (fun cell colIndex => if r = row ∧ colIndex = col then x else cell) cells) :=
  getElem?_mapWithIndex _ r g

theorem rowLengths_writeCell (x : Cell) (row col : Nat) (g : Grid) :
    (writeCell x row col g).map List.length = g.map List.length := by
  apply List.ext_getElem?
  intro r
  simp only [List.getElem?_map, getElem?_writeCell]
  cases g[r]? with
  | none => rfl
  | some cells => simp [length_mapWithIndex]

theorem getCell_writeCell (x : Cell) (row col r c : Nat) (g : Grid) :
    getCell (writeCell x row col g) r c =
      if r = row ∧ c = col then (getCell g r c).map (fun _ => x) else getCell g r c := by
  unfold getCell
  rw [getElem?_writeCell]
  cases g[r]? with
  | none => simp
  | some cells =>
    simp only [Option.map_some', getElem?_mapWithIndex]
    cases cells[c]? with
    | none => simp
    | some cell => by_cases h : r = row ∧ c = col <;> simp [h]

/-- Two grids with the same row lengths and the same cells are equal. -/
theorem grid_ext (g1 g2 : Grid) (hl : g1.map List.length = g2.map List.length)
    (hc : ∀ r c, getCell g1 r c = getCell g2 r c) : g1 = g2 := by
  apply List.ext_getElem?
  intro r
  have hr := congrArg (fun l => l[r]?) hl
  simp only [List.getElem?_map] at hr
  have hcr := hc r
  unfold getCell at hcr
  cases h1 : g1[r]? with
  | none =>
    cases h2 : g2[r]? with
    | none => rfl
    | some l2 => simp [h1, h2] at hr
  | some l1 =>
    cases h2 : g2[r]? with
    | none => simp [h1, h2] at hr
    | some l2 =>
      simp only [h1, h2] at hcr
      exact congrArg some (List.ext_getElem? hcr)

theorem writeCell_eq_self_iff (x : Cell) (row col : Nat) (g : Grid) :
    writeCell x row col g = g ↔
      (getCell g row col = none ∨ getCell g row col = some x) := by
  constructor
  · intro h
    have h1 := getCell_writeCell x row col row col g
    rw [h] at h1
    simp only [and_self, if_true] at h1
    cases hg : getCell g row col with
    | none => exact Or.inl rfl
    | some y =>
      rw [hg] at h1
      simp only [Option.map_some', Option.some.injEq] at h1
      exact Or.inr (by rw [h1])
  · intro h
    apply grid_ext _ _ (rowLengths_writeCell x row col g)
    intro r c
    rw [getCell_writeCell]
    split
    · rename_i hrc
      obtain ⟨rfl, rfl⟩ := hrc
      rcases h with h | h <;> simp [h]
    · rfl


/-! ## Lemmas on the handlers -/

theorem validationResult_validatePuzzle (s : State) :
    (validatePuzzle s).validationResult =
      if s.puzzle = s.solvedPuzzle then "Correct" else "Incorrect" := by
  by_cases h : s.puzzle = s.solvedPuzzle
  · simp [validatePuzzle, h]
  · have hj : jsonStringify s.puzzle ≠ jsonStringify s.solvedPuzzle :=
      fun hj => h (jsonStringify_injective hj)
    simp [validatePuzzle, h, hj]

theorem solvePuzzle_puzzle_eq_solved (lib : Lib) (s : State) :
    (solvePuzzle lib s).puzzle = (solvePuzzle lib s).solvedPuzzle := rfl

theorem applyEdit_solvedPuzzle (s : State) (e : Edit) :
    (applyEdit s e).solvedPuzzle = s.solvedPuzzle := by
  cases e <;> rfl

theorem applyEdit_puzzle_length (s : State) (e : Edit) :
    (applyEdit s e).puzzle.length = s.puzzle.length := by
  cases e with
  | change value row col => exact length_writeCell _ row col s.puzzle
  | clear row col => exact length_writeCell _ row col s.puzzle
  | validate => rfl

theorem runEdits_invariant (edits : List Edit) (s : State) :
    (runEdits edits s).solvedPuzzle = s.solvedPuzzle ∧
      (runEdits edits s).puzzle.length = s.puzzle.length := by
  induction edits generalizing s with
  | nil => exact ⟨rfl, rfl⟩
  | cons e edits ih =>
    have h := ih (applyEdit s e)
    rw [applyEdit_solvedPuzzle, applyEdit_puzzle_length] at h
    exact h

theorem resetPuzzle_eq_initialState (lib : Lib) (s : State) :
    resetPuzzle lib s = initialState lib := rfl

theorem initialState_eq (lib : Lib) :
    initialState lib =
      { initialPuzzle := ofLib (generateRandomSudoku lib)
        puzzle := ofLib (generateRandomSudoku lib)
        solvedPuzzle := []
        validationResult := "" } := by
  simp [initialState, deepCopy_eq]

theorem validate_incorrect_of_fresh (edits : List Edit) (lib : Lib)
    (hg : generateRandomSudoku lib ≠ []) :
    (validatePuzzle (runEdits edits (initialState lib))).validationResult = "Incorrect" := by
  obtain ⟨hs, hl⟩ := runEdits_invariant edits (initialState lib)
  rw [validationResult_validatePuzzle, hs]
  rw [initialState_eq] at hl ⊢
  have hne : (runEdits edits
      { initialPuzzle := ofLib (generateRandomSudoku lib)
        puzzle := ofLib (generateRandomSudoku lib)
        solvedPuzzle := []
        validationResult := "" }).puzzle ≠ [] := by
    intro h0
    rw [h0] at hl
    simp only [ofLib, List.length_nil, List.length_map] at hl
    exact hg (List.length_eq_zero.mp hl.symm)
  simp [hne]

/-! ## Lemmas on flattening -/

theorem cellText_digits (r : List (Fin 10)) :
    ((r.map Cell.num).map cellText).flatten = r.map digitChar := by
  induction r with
  | nil => rfl
  | cons d r ih =>
    simp only [List.map_cons, List.flatten_cons, cellText, ih]
    rfl

theorem flatten_data_ofLib (g : LibGrid) :
    (flatten (ofLib g)).data = g.flatten.map digitChar := by
  show ((ofLib g).flatten.map cellText).flatten = g.flatten.map digitChar
  induction g with
  | nil => rfl
  | cons r g ih =>
    simp only [ofLib, List.map_cons, List.flatten_cons, List.map_append,
      List.flatten_append] at ih ⊢
    rw [ih, cellText_digits]

theorem length_flatten_uniform {α : Type} (n : Nat) (g : List (List α))
    (hg : ∀ r ∈ g, r.length = n) : g.flatten.length = n * g.length := by
  induction g with
  | nil => rfl
  | cons r g ih =>
    have h1 : r.length = n := hg r (List.mem_cons_self r g)
    have h2 := ih (fun x hx => hg x (List.mem_cons_of_mem r hx))
    simp only [List.flatten_cons, List.length_append, List.length_cons, h1, h2]
    ring

theorem getElem?_flatten_uniform {α : Type} (n : Nat) (g : List (List α))
    (hg : ∀ r ∈ g, r.length = n) (r c : Nat) (hc : c < n) :
    g.flatten[n * r + c]? = (g[r]?).bind (fun cells => cells[c]?) := by
  induction g generalizing r with
  | nil => simp
  | cons x g ih =>
    have h1 : x.length = n := hg x (List.mem_cons_self x g)
    have h2 := ih (fun y hy => hg y (List.mem_cons_of_mem x hy))
    cases r with
    | zero =>
      simp only [List.flatten_cons, Nat.mul_zero, Nat.zero_add, List.getElem?_cons_zero,
        Option.some_bind]
      exact List.getElem?_append_left (by omega)
    | succ r =>
      simp only [List.flatten_cons, List.getElem?_cons_succ]
      rw [List.getElem?_append_right (by rw [h1, Nat.mul_succ]; omega), ← h2 r]
      congr 1
      rw [h1, Nat.mul_succ]
      omega

theorem digitChar_charDigit (c : Char) (h : isDigitChar c = true) :
    digitChar (charDigit (some c)) = c := by
  have h1 : 48 ≤ c.toNat ∧ c.toNat ≤ 57 := by simpa [isDigitChar] using h
  have h2 : 48 + (c.toNat - 48) = c.toNat := by omega
  simp [charDigit, digitValue, h1, digitChar, h2]

theorem unflatten_rows (s : String) : ∀ r ∈ unflatten s, r.length = 9 := by
  intro r hr
  simp only [unflatten, List.mem_map] at hr
  obtain ⟨i, _, rfl⟩ := hr
  simp

theorem getElem?_flatten_unflatten (s : String) (r c : Nat) (hr : r < 9) (hc : c < 9) :
    (unflatten s).flatten[9 * r + c]? = some (charDigit s.data[9 * r + c]?) := by
  rw [getElem?_flatten_uniform 9 _ (unflatten_rows s) r c hc]
  simp [unflatten, List.getElem?_map, List.getElem?_range, hr, hc]

theorem flatten_unflatten (s : String) (hl : s.length = 81)
    (hd : ∀ c ∈ s.data, isDigitChar c = true) : flatten (ofLib (unflatten s)) = s := by
  have hlen : s.data.length = 81 := hl
  apply String.ext
  rw [flatten_data_ofLib]
  apply List.ext_getElem?
  intro i
  by_cases hi : i < 81
  · have hrc : i = 9 * (i / 9) + i % 9 := by omega
    have hlt : i < s.data.length := by omega
    have hsi : s.data[i]? = some s.data[i] := List.getElem?_eq_getElem hlt
    have hmem : s.data[i] ∈ s.data := List.getElem_mem hlt
    rw [List.getElem?_map]
    conv_lhs => rw [hrc]
    rw [getElem?_flatten_unflatten s (i / 9) (i % 9) (by omega) (by omega), ← hrc, hsi]
    simp only [Option.map_some', digitChar_charDigit _ (hd _ hmem)]
  · have h1 : ((unflatten s).flatten.map digitChar).length = 81 := by
      rw [List.length_map, length_flatten_uniform 9 _ (unflatten_rows s)]
      simp [unflatten]
    rw [List.getElem?_eq_none (by omega), List.getElem?_eq_none (by omega)]

theorem getCell_ofLib (g : LibGrid) (r c : Nat) :
    getCell (ofLib g) r c = ((g[r]?).bind (fun cells => cells[c]?)).map Cell.num := by
  unfold getCell ofLib
  rw [List.getElem?_map]
  cases g[r]? with
  | none => rfl
  | some cells => simp [List.getElem?_map]

/-! ## The claims -/

/-- C3, counterexample: the example session and the session with the wrong entry
have the same `initialPuzzle` and different working grids; `solvePuzzle` leaves
them with different working grids, and the second is not the solver's result for
`initialPuzzle`. -/
theorem solvePuzzle_depends_on_working_grid :
    exampleSession.initialPuzzle = exampleWrongEntry.initialPuzzle ∧
    exampleSession.puzzle ≠ exampleWrongEntry.puzzle ∧
    (solvePuzzle exampleLib exampleSession).puzzle ≠
      (solvePuzzle exampleLib exampleWrongEntry).puzzle ∧
    (solvePuzzle exampleLib exampleWrongEntry).puzzle ≠
      solveSudoku exampleLib exampleWrongEntry.initialPuzzle := by
  decide

/-- C3, amended: `solvePuzzle` runs the solver on the working grid and overwrites
the working grid with the result. Two session states with the same working grid
have the same working grid after `solvePuzzle`, whatever their `initialPuzzle`:
the library's grid of the solved string when `Sudoku.solve` returns a truthy
value for the flattened working grid, and the working grid itself otherwise. -/
theorem solvePuzzle_solves_working_grid (lib : Lib) (s1 s2 : State)
    (h : s1.puzzle = s2.puzzle) :
    (solvePuzzle lib s1).puzzle = (solvePuzzle lib s2).puzzle ∧
    (solvePuzzle lib s1).puzzle = solveSudoku lib s1.puzzle ∧
    (solvePuzzle lib s1).puzzle =
      if truthy (lib.solve (flatten s1.puzzle)) then
        ofLib (lib.board_string_to_grid ((lib.solve (flatten s1.puzzle)).getD ""))
      else s1.puzzle := by
  refine ⟨?_, rfl, rfl⟩
  simp [solvePuzzle, h]

/-- C3, witness: the example session and the same session with another
`initialPuzzle` are solved to the same grid, the solution of the example. -/
theorem solvePuzzle_solves_working_grid_witness :
    exampleSession.puzzle = ({ exampleSession with initialPuzzle := [] } : State).puzzle ∧
    (solvePuzzle exampleLib exampleSession).puzzle =
      (solvePuzzle exampleLib { exampleSession with initialPuzzle := [] }).puzzle ∧
    (solvePuzzle exampleLib exampleSession).puzzle = ofLib (unflatten exampleSolutionText) :=
  ⟨rfl,
   (solvePuzzle_solves_working_grid exampleLib exampleSession
      { exampleSession with initialPuzzle := [] } rfl).1,
   by decide⟩

set_option maxRecDepth 1000000 in
/-- C4, the failing input: the library reports no solution for the working grid
of the session with the wrong entry; `solvePuzzle` leaves `initialPuzzle` and
`puzzle` as they were but replaces the empty cached solution by the unsolved
working grid, after which `validatePuzzle` answers `Correct`. -/
theorem failed_solve_overwrites_cached_solution :
    truthy (exampleLib.solve (flatten exampleWrongEntry.puzzle)) = false ∧
    (solvePuzzle exampleLib exampleWrongEntry).initialPuzzle = exampleWrongEntry.initialPuzzle ∧
    (solvePuzzle exampleLib exampleWrongEntry).puzzle = exampleWrongEntry.puzzle ∧
    exampleWrongEntry.solvedPuzzle = [] ∧
    (solvePuzzle exampleLib exampleWrongEntry).solvedPuzzle = exampleWrongEntry.puzzle ∧
    (solvePuzzle exampleLib exampleWrongEntry).solvedPuzzle ≠ exampleWrongEntry.solvedPuzzle ∧
    (validatePuzzle (solvePuzzle exampleLib exampleWrongEntry)).validationResult = "Correct" := by
  decide

/-- C5: on a freshly generated session (the first render, or the state after
`resetPuzzle`), `solvePuzzle` followed by `validatePuzzle` leaves
`validationResult` equal to `Correct`, for every generated grid and every
behaviour of the library solver. -/
theorem solve_then_validate_is_correct (gen lib : Lib) (s0 : State) :
    (validatePuzzle (solvePuzzle lib (initialState gen))).validationResult = "Correct" ∧
    (validatePuzzle (solvePuzzle lib (resetPuzzle gen s0))).validationResult = "Correct" := by
  constructor <;>
    simp [validationResult_validatePuzzle, solvePuzzle_puzzle_eq_solved]

/-- C6: after `resetPuzzle` the original grid is the generated grid, the working
grid is equal to it, the cached solution is the empty list and
`validationResult` is the empty string; the state does not depend on the state
before. -/
theorem resetPuzzle_replaces_session (lib : Lib) (s s0 : State) :
    resetPuzzle lib s =
      { initialPuzzle := ofLib (generateRandomSudoku lib)
        puzzle := ofLib (generateRandomSudoku lib)
        solvedPuzzle := []
        validationResult := "" } ∧
    (resetPuzzle lib s).puzzle = (resetPuzzle lib s).initialPuzzle ∧
    resetPuzzle lib s = resetPuzzle lib s0 := by
  refine ⟨?_, ?_, rfl⟩
  · rw [resetPuzzle_eq_initialState, initialState_eq]
  · rw [resetPuzzle_eq_initialState, initialState_eq]

/-- C7: row-major flatten and unflatten are inverse to each other. For a string
`s` of 81 decimal digits, flattening the grid of 9 rows of 9 whose cell `(r, c)`
is `s[9 * r + c]` gives back `s`; and for a grid of 9 rows of 9 cells 0..9, the
flattened string has length 81 and holds the digit of cell `(r, c)` at index
`9 * r + c`. -/
theorem flatten_unflatten_lossless :
    (∀ s : String, s.length = 81 → (∀ c ∈ s.data, isDigitChar c = true) →
      (unflatten s).length = 9 ∧ (∀ r ∈ unflatten s, r.length = 9) ∧
      (∀ r c, r < 9 → c < 9 →
        getCell (ofLib (unflatten s)) r c = some (Cell.num (charDigit s.data[9 * r + c]?))) ∧
      flatten (ofLib (unflatten s)) = s) ∧
    (∀ g : LibGrid, g.length = 9 → (∀ r ∈ g, r.length = 9) →
      (flatten (ofLib g)).length = 81 ∧
      ∀ r c d, r < 9 → c < 9 → getCell (ofLib g) r c = some (Cell.num d) →
        (flatten (ofLib g)).data[9 * r + c]? = some (digitChar d)) := by
  constructor
  · intro s hl hd
    refine ⟨by simp [unflatten], unflatten_rows s, ?_, flatten_unflatten s hl hd⟩
    intro r c hr hc
    rw [getCell_ofLib, ← getElem?_flatten_uniform 9 _ (unflatten_rows s) r c hc,
      getElem?_flatten_unflatten s r c hr hc]
    rfl
  · intro g hl hrows
    constructor
    · show (flatten (ofLib g)).data.length = 81
      rw [flatten_data_ofLib, List.length_map, length_flatten_uniform 9 g hrows, hl]
    · intro r c d _ hc hcell
      rw [flatten_data_ofLib, List.getElem?_map, getElem?_flatten_uniform 9 g hrows r c hc]
      rw [getCell_ofLib] at hcell
      cases hx : (g[r]?).bind (fun cells => cells[c]?) with
      | none => simp [hx] at hcell
      | some y =>
        simp only [hx, Option.map_some', Option.some.injEq, Cell.num.injEq] at hcell
        simp [hcell]

/-- C7, witness: the example board string has 81 digits and survives the round
trip; its grid has 9 rows of 9 and flattens to a string of length 81 whose
character at index 9 * 1 + 3 is the digit of cell (1, 3). -/
theorem flatten_unflatten_lossless_witness :
    (examplePuzzleText.length = 81 ∧ (∀ c ∈ examplePuzzleText.data, isDigitChar c = true) ∧
      flatten (ofLib (unflatten examplePuzzleText)) = examplePuzzleText) ∧
    ((unflatten examplePuzzleText).length = 9 ∧
      (∀ r ∈ unflatten examplePuzzleText, r.length = 9) ∧
      getCell (ofLib (unflatten examplePuzzleText)) 1 3 = some (Cell.num 1) ∧
      (flatten (ofLib (unflatten examplePuzzleText))).length = 81 ∧
      (flatten (ofLib (unflatten examplePuzzleText))).data[9 * 1 + 3]? = some (digitChar 1)) :=
  ⟨⟨by decide, by decide,
    (flatten_unflatten_lossless.1 examplePuzzleText (by decide) (by decide)).2.2.2⟩,
   ⟨by decide, by decide, by decide,
    (flatten_unflatten_lossless.2 (unflatten examplePuzzleText) (by decide) (by decide)).1,
    (flatten_unflatten_lossless.2 (unflatten examplePuzzleText) (by decide) (by decide)).2
      1 3 1 (by decide) (by decide) (by decide)⟩⟩

/-- C8: `validatePuzzle` leaves `initialPuzzle`, `puzzle` and `solvedPuzzle`
unchanged, and calling it twice gives the same `validationResult` and the same
state as calling it once. -/
theorem validatePuzzle_pure_and_idempotent (s : State) :
    (validatePuzzle s).initialPuzzle = s.initialPuzzle ∧
    (validatePuzzle s).puzzle = s.puzzle ∧
    (validatePuzzle s).solvedPuzzle = s.solvedPuzzle ∧
    (validatePuzzle (validatePuzzle s)).validationResult = (validatePuzzle s).validationResult ∧
    validatePuzzle (validatePuzzle s) = validatePuzzle s :=
  ⟨rfl, rfl, rfl, rfl, rfl⟩

/-- C9: from the first render or from `resetPuzzle`, any sequence of
`handleCellChange`, `clearCell` and `validatePuzzle` calls leaves `solvedPuzzle`
the empty list, and when the generated grid has at least one row
`validatePuzzle` then yields `Incorrect`, whatever the working grid holds. -/
theorem solution_cache_stays_empty (lib : Lib) (s0 : State) (edits : List Edit) :
    (runEdits edits (initialState lib)).solvedPuzzle = [] ∧
    (runEdits edits (resetPuzzle lib s0)).solvedPuzzle = [] ∧
    (generateRandomSudoku lib ≠ [] →
      (validatePuzzle (runEdits edits (initialState lib))).validationResult = "Incorrect" ∧
      (validatePuzzle (runEdits edits (resetPuzzle lib s0))).validationResult = "Incorrect") :=
  ⟨(runEdits_invariant edits (initialState lib)).1,
   (runEdits_invariant edits (initialState lib)).1,
   fun hg => ⟨validate_incorrect_of_fresh edits lib hg, validate_incorrect_of_fresh edits lib hg⟩⟩

set_option maxRecDepth 1000000 in
/-- C9, witness: the example puzzle has nine rows; after the player has typed the
whole solution the working grid is the solution of the puzzle, and
`validatePuzzle` still yields `Incorrect`. -/
theorem solution_cache_stays_empty_witness :
    generateRandomSudoku exampleLib ≠ [] ∧
    (generateRandomSudoku exampleLib).length = 9 ∧
    (runEdits exampleSolutionEdits (initialState exampleLib)).puzzle =
      ofLib (unflatten exampleSolutionText) ∧
    (validatePuzzle (runEdits exampleSolutionEdits (initialState exampleLib))).validationResult =
      "Incorrect" :=
  ⟨by decide, by decide, by decide,
   ((solution_cache_stays_empty exampleLib exampleSession exampleSolutionEdits).2.2
      (by decide)).1⟩

/-- C10: `handleCellChange` and `clearCell` keep the number of rows and every row
length, leave every cell other than `(row, col)` unchanged, put the number
`+value` (0 for `clearCell`) into an existing cell `(row, col)`, change nothing
when the grid has no such cell, and leave `initialPuzzle` and `solvedPuzzle`
untouched. -/
theorem cell_handlers_change_one_cell (s : State) (value : Option Char) (row col : Nat) :
    ((handleCellChange value row col s).puzzle.length = s.puzzle.length ∧
     (handleCellChange value row col s).puzzle.map List.length = s.puzzle.map List.length ∧
     (∀ r c, ¬(r = row ∧ c = col) →
        getCell (handleCellChange value row col s).puzzle r c = getCell s.puzzle r c) ∧
     (∀ old, getCell s.puzzle row col = some old →
        getCell (handleCellChange value row col s).puzzle row col = some (toNumber value)) ∧
     (getCell s.puzzle row col = none → (handleCellChange value row col s).puzzle = s.puzzle) ∧
     (handleCellChange value row col s).initialPuzzle = s.initialPuzzle ∧
     (handleCellChange value row col s).solvedPuzzle = s.solvedPuzzle) ∧
    ((clearCell row col s).puzzle.length = s.puzzle.length ∧
     (clearCell row col s).puzzle.map List.length = s.puzzle.map List.length ∧
     (∀ r c, ¬(r = row ∧ c = col) →
        getCell (clearCell row col s).puzzle r c = getCell s.puzzle r c) ∧
     (∀ old, getCell s.puzzle row col = some old →
        getCell (clearCell row col s).puzzle row col = some (Cell.num 0)) ∧
     (getCell s.puzzle row col = none → (clearCell row col s).puzzle = s.puzzle) ∧
     (clearCell row col s).initialPuzzle = s.initialPuzzle ∧
     (clearCell row col s).solvedPuzzle = s.solvedPuzzle) := by
  have key : ∀ x : Cell,
      (writeCell x row col s.puzzle).length = s.puzzle.length ∧
      (writeCell x row col s.puzzle).map List.length = s.puzzle.map List.length ∧
      (∀ r c, ¬(r = row ∧ c = col) →
        getCell (writeCell x row col s.puzzle) r c = getCell s.puzzle r c) ∧
      (∀ old, getCell s.puzzle row col = some old →
        getCell (writeCell x row col s.puzzle) row col = some x) ∧
      (getCell s.puzzle row col = none → writeCell x row col s.puzzle = s.puzzle) := by
    intro x
    refine ⟨length_writeCell x row col _, rowLengths_writeCell x row col _, ?_, ?_, ?_⟩
    · intro r c hrc
      rw [getCell_writeCell, if_neg hrc]
    · intro old hold
      rw [getCell_writeCell, if_pos ⟨rfl, rfl⟩, hold]
      rfl
    · intro hnone
      exact (writeCell_eq_self_iff x row col _).mpr (Or.inl hnone)
  obtain ⟨a1, a2, a3, a4, a5⟩ := key (toNumber value)
  obtain ⟨b1, b2, b3, b4, b5⟩ := key (Cell.num 0)
  exact ⟨⟨a1, a2, a3, a4, a5, rfl, rfl⟩, ⟨b1, b2, b3, b4, b5, rfl, rfl⟩⟩

/-- C10, witness: typing 4 into the empty cell (0, 2) of the example session
keeps the nine rows of nine, leaves the Given 5 at (0, 0) in place and puts 4
at (0, 2); clearing the missing cell (9, 0) changes nothing. -/
theorem cell_handlers_change_one_cell_witness :
    (¬(0 = 0 ∧ 0 = 2) ∧ getCell exampleSession.puzzle 0 2 = some (Cell.num 0) ∧
      getCell exampleSession.puzzle 9 0 = none) ∧
    (handleCellChange (some '4') 0 2 exampleSession).puzzle.map List.length =
      [9, 9, 9, 9, 9, 9, 9, 9, 9] ∧
    getCell (handleCellChange (some '4') 0 2 exampleSession).puzzle 0 0 = some (Cell.num 5) ∧
    getCell (handleCellChange (some '4') 0 2 exampleSession).puzzle 0 2 = some (Cell.num 4) ∧
    (clearCell 9 0 exampleSession).puzzle = exampleSession.puzzle :=
  ⟨⟨by decide, by decide, by decide⟩,
   ((cell_handlers_change_one_cell exampleSession (some '4') 0 2).1.2.1).trans (by decide),
   ((cell_handlers_change_one_cell exampleSession (some '4') 0 2).1.2.2.1 0 0
      (by decide)).trans (by decide),
   (cell_handlers_change_one_cell exampleSession (some '4') 0 2).1.2.2.2.1 (Cell.num 0)
      (by decide),
   (cell_handlers_change_one_cell exampleSession none 9 0).2.2.2.2.2.1 (by decide)⟩

end SudokuApp
